import Mathlib

/-!
Verification of the input-to-execution pipeline of the `myshell` program
(`src/cmd/myshell/main.go`): the quote-aware tokenizer (`parseArgs`), the
segmenter (`aggregateArgs`), the command resolver (`getCompoundCommand`,
`getBuiltinCommand`, `getSystemCommand` consulted by `executeCommand`), the
redirect handler (`handleRedirect`), the reporting step of `handleInput`, and
the built-ins `exit` and `cd`.

Modelling conventions:
  - Go strings are modelled as Lean `String`/`List Char`; Go's byte length
    `len(s)` is modelled as the sum of the UTF-8 sizes of the characters
    (`utf8Len`), which agrees with Go for valid UTF-8 input.
  - Filesystem state is explicit: redirect targets live in an association
    list from file name to content; PATH resolution consults an `Env` whose
    `files` field is the `stat` table; `cd` acts on a `World` whose `dirs`
    field lists the paths to which `os.Chdir` succeeds.
  - Fallible OS calls whose outcome is not determined by the modelled state
    (the open/write of a redirect target) take the outcome as an explicit
    `Option String` argument (`none` = success, `some e` = failure with
    error text `e`), mirroring Go's `err` values.
  - `os.Exit` is modelled by returning an `ExitOutcome` value instead of
    not returning.
-/

namespace Shell

/-- The single-quote character `\x27` (written via its code point). -/
def squote : Char := Char.ofNat 39

/-- The backtick character (written via its code point). -/
def backtick : Char := Char.ofNat 96

/-- Characters treated as white space by Go's `strings.TrimSpace` /
`unicode.IsSpace`: `\t`, `\n`, `\v`, `\f`, `\r`, space, NEL (U+0085) and
NBSP (U+00A0).  (Higher Unicode space code points also count in Go; they do
not occur in any input considered here and are elided.) -/
def isGoSpace (c : Char) : Bool :=
  c = ' ' ∨ c = Char.ofNat 9 ∨ c = Char.ofNat 10 ∨ c = Char.ofNat 11 ∨
    c = Char.ofNat 12 ∨ c = Char.ofNat 13 ∨ c = Char.ofNat 0x85 ∨ c = Char.ofNat 0xA0

/-- Leading/trailing white space removal on a character list. -/
def goTrimChars (cs : List Char) : List Char :=
  ((cs.dropWhile isGoSpace).reverse.dropWhile isGoSpace).reverse

/-- Go's `strings.TrimSpace`. -/
def goTrim (s : String) : String :=
  String.mk (goTrimChars s.data)

/-- The Go byte length of a character sequence: the sum of the UTF-8 sizes
of its characters (= `len(input)` in Go for valid UTF-8). -/
def utf8Len (cs : List Char) : Nat :=
  (cs.map Char.utf8Size).sum

/-- `executionConfig` (main.go:25-31): the per-Segment execution context.
`status` defaults to failure (1). -/
structure executionConfig where
  args : List String
  commandName : String
  status : Int
  stdErr : String
  stdOut : String
deriving DecidableEq, Repr

/-- `newExecutionConfig` (main.go:33-39): fresh context with failure status 1
and empty output accumulators. -/
def newExecutionConfig (commandName : String) (args : List String) : executionConfig :=
  { status := 1, args := args, commandName := commandName, stdErr := "", stdOut := "" }

/-- `commandType` (main.go:41-46). -/
inductive commandType where
  | cmdBuiltin
  | cmdCompound
  | cmdNotFound
  | cmdSystem
deriving DecidableEq, Repr

/-- `isRedirect` (main.go:93-95): `strings.HasSuffix(x, ">")`.  Since `>` is
a one-byte character, a string ends with the byte `>` iff its last character
is `>`. -/
def isRedirect (x : String) : Bool :=
  x.data.getLast? == some '>'

/-- Loop body of `aggregateArgs` (main.go:97-115).  The Go loop appends the
current accumulation and restarts it at `[x]` whenever `x` is a redirect
marker, otherwise extends the accumulation; after the last element (`i ==
len(args)-1`) the final accumulation is appended.  Here the final append is
the `[]` case, which for non-empty input is reached exactly after the last
element. -/
def aggregateArgsAux : List (List String) → List String → List String → List (List String)
  | aggs, curr, [] => aggs ++ [curr]
  | aggs, curr, x :: rest =>
    if isRedirect x then aggregateArgsAux (aggs ++ [curr]) [x] rest
    else aggregateArgsAux aggs (curr ++ [x]) rest

/-- `aggregateArgs` (main.go:97-115).  For empty input the Go loop body never
runs, so no final accumulation is appended and the result is empty. -/
def aggregateArgs (args : List String) : List (List String) :=
  match args with
  | [] => []
  | _ :: _ => aggregateArgsAux [] [] args

/-- Tokenizer states (main.go:117-123). -/
inductive PState where
  | doubleQuoted
  | doubleQuotedEscaped
  | unquoted
  | unquotedEscaped
  | singleQuoted
deriving DecidableEq, Repr

/-- One iteration of the `parseArgs` loop body (main.go:130-185), before the
word write/flush: given the state, whether the current word buffer is
non-empty (`currWord.Len() > 0`), whether `i == len(input)-1` (`atLast`), and
the character, it returns `(nextState, toAdd, startNextWord)`.  The branch
for `doubleQuotedEscaped` mirrors the Go `switch string(x)` over the five
special characters. -/
def stepCore : PState → Bool → Bool → Char → PState × String × Bool
  | .unquoted, currNonempty, atLast, x =>
    if x = '"' then (.doubleQuoted, "", atLast)
    else if x = squote then (.singleQuoted, "", atLast)
    else if x = '\\' then (.unquotedEscaped, "", atLast)
    else if x = ' ' then (.unquoted, "", atLast || currNonempty)
    else (.unquoted, String.singleton x, atLast)
  | .unquotedEscaped, _, atLast, x => (.unquoted, String.singleton x, atLast)
  | .singleQuoted, _, atLast, x =>
    if x = squote then (.unquoted, "", atLast)
    else (.singleQuoted, String.singleton x, atLast)
  | .doubleQuoted, _, atLast, x =>
    if x = '\\' then (.doubleQuotedEscaped, "", atLast)
    else if x = '"' then (.unquoted, "", atLast)
    else (.doubleQuoted, String.singleton x, atLast)
  | .doubleQuotedEscaped, _, atLast, x =>
    (.doubleQuoted,
      if x = '"' ∨ x = '$' ∨ x = backtick ∨ x = '\\' ∨ x = Char.ofNat 10
        then String.singleton x else "\\" ++ String.singleton x,
      atLast)

/-- The mutable locals of the `parseArgs` loop: tokenizer state, current word
buffer, emitted words. -/
structure TokState where
  state : PState
  currWord : String
  args : List String
deriving DecidableEq, Repr

/-- One full iteration of the `parseArgs` loop (main.go:130-194): run the
state-machine body, append `toAdd` to the word buffer, and on
`startNextWord` flush the white-space-trimmed buffer as a word
(main.go:189-193, `strings.TrimSpace(currWord.String())`). -/
def parseStep (totalLen i : Nat) (x : Char) (st : TokState) : TokState :=
  let r := stepCore st.state (!(st.currWord == "")) (decide (i = totalLen - 1)) x
  let curr := st.currWord ++ r.2.1
  if r.2.2 then { state := r.1, currWord := "", args := st.args ++ [goTrim curr] }
  else { state := r.1, currWord := curr, args := st.args }

/-- The `for i, x := range input` loop of `parseArgs` (main.go:130): Go
iterates runes while `i` advances by each rune's byte size. -/
def parseArgsAux : Nat → Nat → TokState → List Char → TokState
  | _, _, st, [] => st
  | totalLen, i, st, x :: rest =>
    parseArgsAux totalLen (i + x.utf8Size) (parseStep totalLen i x st) rest

/-- Initial locals of `parseArgs` (main.go:126-128). -/
def initTokState : TokState :=
  { state := .unquoted, currWord := "", args := [] }

/-- The final locals after running `parseArgs` on a character sequence. -/
def tokRun (cs : List Char) (totalLen : Nat) : TokState :=
  parseArgsAux totalLen 0 initTokState cs

/-- `parseArgs` (main.go:125-197) on a character sequence. -/
def parseArgsChars (cs : List Char) : List String :=
  (tokRun cs (utf8Len cs)).args

/-- `parseArgs` (main.go:125-197). -/
def parseArgs (input : String) : List String :=
  parseArgsChars input.data

/-- Filesystem contents for redirect targets: association list from file
name to file content (first binding wins, as with a real directory there is
at most one binding per name in the states considered). -/
def fsLookup (fs : List (String × String)) (name : String) : Option String :=
  List.lookup name fs

/-- Replace (or add) the binding of `name` in the filesystem. -/
def fsUpdate : List (String × String) → String → String → List (String × String)
  | [], name, content => [(name, content)]
  | (k, v) :: rest, name, content =>
    if k = name then (name, content) :: rest
    else (k, v) :: fsUpdate rest name content

/-- The content of the target file after `handleRedirect`'s write
(main.go:252-261).  When the file does not exist, `os.Create` makes an empty
file and the write leaves exactly the payload.  When it exists,
`os.OpenFile(.., os.O_WRONLY, 0o644)` opens WITHOUT truncation and
`file.Write` overwrites from offset 0, so any old content beyond the payload
length survives.  (Lengths are in characters here; Go counts bytes — the two
agree on the ASCII contents exercised by the claims.) -/
def goWriteContent (old : Option String) (payload : String) : String :=
  match old with
  | none => payload
  | some oldContent => payload ++ String.mk (oldContent.data.drop payload.data.length)

/-- `handleRedirect` (main.go:234-271).  `writeErr` injects the outcome of
the `os.Create`/`os.OpenFile`/`file.Write` sequence: `none` means every call
succeeded, `some e` means one of them failed with error text `e` (in which
case the target binding is left unmodelled/unchanged).  The pass-through
printing of `prevConfig.stdErr` to the process stderr (main.go:248-250) is a
side effect not needed by any claim and is elided. -/
def handleRedirect (config prevConfig : executionConfig) (fs : List (String × String))
    (writeErr : Option String) : executionConfig × List (String × String) :=
  if config.args.length < 2 then
    ({ config with stdOut := "too few arguments for redirect" }, fs)
  else
    let fileName := config.args.getD 1 ""
    let payload := String.join (prevConfig.stdOut :: config.args.drop 2)
    match writeErr with
    | some e => ({ config with stdErr := e }, fs)
    | none =>
      ({ config with status := 0 },
        fsUpdate fs fileName (goWriteContent (fsLookup fs fileName) payload))

/-- Which process stream a line report goes to. -/
inductive OutChannel where
  | out
  | err
deriving DecidableEq, Repr

/-- The reporting step at the end of `handleInput` (main.go:79-91): pick
stderr when the final status is non-zero, else stdout; trim the chosen
accumulator; print only if non-empty (`len(output) > 0`).  `none` means
nothing is printed on either stream. -/
def reportOf (prev : executionConfig) : Option (OutChannel × String) :=
  let pair :=
    if prev.status = 0 then (OutChannel.out, goTrim prev.stdOut)
    else (OutChannel.err, goTrim prev.stdErr)
  if pair.2 = "" then none else some pair

/-- What `os.Stat` reports about a path, as far as the program consults it:
whether the entry is a regular file, and its permission bits
(`Mode().Perm()`, i.e. the low 9 bits). -/
structure FileInfo where
  isRegular : Bool
  perm : Nat
deriving DecidableEq, Repr

/-- The process environment consulted by PATH resolution: the value of
`PATH` and the `stat` table (path ↦ `FileInfo`; absent = `os.Stat` errors). -/
structure Env where
  pathVar : String
  files : List (String × FileInfo)
deriving DecidableEq, Repr

/-- `os.Stat` against the modelled environment. -/
def statEnv (env : Env) (p : String) : Option FileInfo :=
  List.lookup p env.files

/-- Go's `filepath.Join` on two components: empty components are skipped,
then the components are joined with `/`.  (`filepath.Clean` is the identity
on the slash-free, dot-free components used here and is elided.) -/
def filepathJoin (dir name : String) : String :=
  if dir = "" ∧ name = "" then ""
  else if dir = "" then name
  else if name = "" then dir
  else dir ++ "/" ++ name

/-- Splitting on `:` keeping empty fields, as `strings.Split(s, ":")` does
(`""` yields `[""]`). -/
def splitColon : List Char → List Char → List String
  | acc, [] => [String.mk acc.reverse]
  | acc, c :: rest =>
    if c = ':' then String.mk acc.reverse :: splitColon [] rest
    else splitColon (c :: acc) rest

/-- `strings.Split(os.Getenv("PATH"), ":")` (main.go:308). -/
def splitPath (s : String) : List String :=
  splitColon [] s.data

/-- The PATH scan of `getSystemCommand` (main.go:311-320): for each directory
in order, `stat` the joined candidate path; on success, if the OWNER execute
bit (`Perm()&0o100`) is set, stop with that path; otherwise (stat error, or
bit clear) continue with the next directory. -/
def getSystemCommandAux (env : Env) (commandName : String) :
    List String → String × commandType
  | [] => ("", .cmdNotFound)
  | dir :: rest =>
    let cmdPath := filepathJoin dir commandName
    match statEnv env cmdPath with
    | some fi =>
      if fi.perm &&& 0o100 ≠ 0 then (cmdPath, .cmdSystem)
      else getSystemCommandAux env commandName rest
    | none => getSystemCommandAux env commandName rest

/-- `getSystemCommand` (main.go:306-323). -/
def getSystemCommand (env : Env) (commandName : String) : String × commandType :=
  getSystemCommandAux env commandName (splitPath env.pathVar)

/-- Whether a PATH directory matches in `getSystemCommand`'s scan: the
candidate stats successfully and has the owner execute bit set. -/
def dirHasOwnerExec (env : Env) (commandName dir : String) : Bool :=
  match statEnv env (filepathJoin dir commandName) with
  | some fi => decide (fi.perm &&& 0o100 ≠ 0)
  | none => false

/-- Modelled from the claim's own words (C4), NOT from the source, for
comparison with `getSystemCommandAux`: the claim requires a REGULAR file
with ANY execute bit (`0o111`) set. -/
def getSystemCommandClaimAux (env : Env) (commandName : String) :
    List String → String × commandType
  | [] => ("", .cmdNotFound)
  | dir :: rest =>
    let cmdPath := filepathJoin dir commandName
    match statEnv env cmdPath with
    | some fi =>
      if fi.isRegular ∧ fi.perm &&& 0o111 ≠ 0 then (cmdPath, .cmdSystem)
      else getSystemCommandClaimAux env commandName rest
    | none => getSystemCommandClaimAux env commandName rest

/-- Modelled from the claim's own words (C4), NOT from the source: PATH
resolution as C4 states it. -/
def getSystemCommandClaim (env : Env) (commandName : String) : String × commandType :=
  getSystemCommandClaimAux env commandName (splitPath env.pathVar)

/-- The keys of the `builtins` map of `getBuiltinCommand` (main.go:288-294). -/
def builtinNames : List String :=
  ["cd", "echo", "exit", "pwd", "type"]

/-- The `commandType` component of `getBuiltinCommand` (main.go:287-303):
`cmdBuiltin` exactly when the name is a key of the builtins map. -/
def getBuiltinCommandType (name : String) : commandType :=
  if builtinNames.contains name then .cmdBuiltin else .cmdNotFound

/-- The `commandType` component of `getCompoundCommand` (main.go:274-284):
`cmdCompound` exactly when the name is a redirect marker. -/
def getCompoundCommandType (name : String) : commandType :=
  if isRedirect name then .cmdCompound else .cmdNotFound

/-- The classification decided by `executeCommand` (main.go:199-214): which
of its four branches runs for a given command name, in source order —
compound (redirect) first, then builtin, then system, else not-found. -/
def executeCommandClass (env : Env) (name : String) : commandType :=
  if getCompoundCommandType name = .cmdCompound then .cmdCompound
  else if getBuiltinCommandType name = .cmdBuiltin then .cmdBuiltin
  else if (getSystemCommand env name).2 = .cmdSystem then .cmdSystem
  else .cmdNotFound

/-- The `%q` quoting used inside `strconv.Atoi` error text.  (Go escapes
non-printable characters inside the quotes; the arguments exercised here
contain none, so escaping is elided.) -/
def quoteArg (s : String) : String :=
  "\"" ++ s ++ "\""

/-- Go's `strconv.Atoi`: optional sign, one or more ASCII digits, 64-bit
range check.  Returns the parsed value or the error text carried by `err`. -/
def goAtoi (s : String) : Except String Int :=
  let signDigits : Int × List Char :=
    match s.data with
    | '+' :: rest => (1, rest)
    | '-' :: rest => (-1, rest)
    | cs => (1, cs)
  if signDigits.2 = [] ∨ ¬ signDigits.2.all Char.isDigit then
    .error ("strconv.Atoi: parsing " ++ quoteArg s ++ ": invalid syntax")
  else
    let v : Int :=
      signDigits.1 * (signDigits.2.foldl (fun acc c => acc * 10 + (c.toNat - 48)) 0 : Nat)
    if v < -(2 ^ 63) ∨ 2 ^ 63 - 1 < v then
      .error ("strconv.Atoi: parsing " ++ quoteArg s ++ ": value out of range")
    else .ok v

/-- How `handleExit` ends: either the process terminates via `os.Exit` with
the given status (the final context is recorded alongside for inspection),
or the function returns the context without terminating. -/
inductive ExitOutcome where
  | exited (status : Int) (config : executionConfig)
  | returned (config : executionConfig)
deriving DecidableEq, Repr

/-- `handleExit` (main.go:325-349): more than one extra argument returns
"too many arguments" without exiting; otherwise the optional argument is
parsed — on error `stdErr` gets the error text and `status` keeps its value
(the default 1 from `newExecutionConfig`), on success `status` becomes the
parsed value — and then `os.Exit(config.status)` runs unconditionally. -/
def handleExit (config : executionConfig) : ExitOutcome :=
  if config.args.length > 2 then
    .returned { config with stdErr := "too many arguments" }
  else
    let config :=
      if config.args.length > 1 then
        match goAtoi (config.args.getD 1 "") with
        | .error e => { config with stdErr := e }
        | .ok x => { config with status := x }
      else config
    .exited config.status config

/-- The process-wide state consulted and mutated by `cd`: the working
directory, the set of paths to which `os.Chdir` succeeds, and the home
directory reported by `os.UserHomeDir` (modelled as always succeeding; its
error branch, main.go:357-359, is not reachable in any claim). -/
structure World where
  cwd : String
  dirs : List String
  home : String
deriving DecidableEq, Repr

/-- `os.Chdir`: succeeds (moving the working directory) exactly on the
paths listed in `dirs`; on failure the world is unchanged. -/
def chdir (w : World) (path : String) : Option World :=
  if w.dirs.contains path then some { w with cwd := path } else none

/-- `handleCd` (main.go:351-371): the path is the trimmed no-separator join
of the arguments after the name; `~` is replaced by the home directory;
`os.Chdir` success sets status 0, failure sets the not-found message and
leaves the default failure status. -/
def handleCd (w : World) (config : executionConfig) : executionConfig × World :=
  let path := goTrim (String.join (config.args.drop 1))
  let path := if path = "~" then w.home else path
  match chdir w path with
  | some w2 => ({ config with status := 0 }, w2)
  | none =>
    ({ config with stdErr := "cd: " ++ path ++ ": No such file or directory" }, w)

/-! ## Helper lemmas -/

theorem aggregateArgsAux_join (xs : List String) :
    ∀ (aggs : List (List String)) (curr : List String),
      (aggregateArgsAux aggs curr xs).flatten = aggs.flatten ++ curr ++ xs := by
  induction xs with
  | nil => intro aggs curr; simp [aggregateArgsAux]
  | cons x rest ih =>
    intro aggs curr
    by_cases hx : isRedirect x
    · simp [aggregateArgsAux, hx, ih]
    · simp [aggregateArgsAux, hx, ih]

theorem aggregateArgsAux_length (xs : List String) :
    ∀ (aggs : List (List String)) (curr : List String),
      (aggregateArgsAux aggs curr xs).length =
        aggs.length + 1 + xs.countP (fun x => isRedirect x) := by
  induction xs with
  | nil => intro aggs curr; simp [aggregateArgsAux]
  | cons x rest ih =>
    intro aggs curr
    by_cases hx : isRedirect x
    · simp [aggregateArgsAux, hx, ih, List.countP_cons]
      omega
    · simp [aggregateArgsAux, hx, ih, List.countP_cons]

theorem parseArgsAux_append (a b : List Char) :
    ∀ (T i : Nat) (st : TokState),
      parseArgsAux T i st (a ++ b) =
        parseArgsAux T (i + utf8Len a) (parseArgsAux T i st a) b := by
  induction a with
  | nil => intro T i st; simp [parseArgsAux, utf8Len]
  | cons x a ih =>
    intro T i st
    have hlen : i + utf8Len (x :: a) = (i + x.utf8Size) + utf8Len a := by
      simp [utf8Len]; omega
    calc parseArgsAux T i st ((x :: a) ++ b)
        = parseArgsAux T (i + x.utf8Size) (parseStep T i x st) (a ++ b) := rfl
      _ = parseArgsAux T ((i + x.utf8Size) + utf8Len a)
            (parseArgsAux T (i + x.utf8Size) (parseStep T i x st) a) b := ih T _ _
      _ = parseArgsAux T (i + utf8Len (x :: a)) (parseArgsAux T i st (x :: a)) b := by
            rw [hlen]; simp only [parseArgsAux]

theorem stepCore_snw_true (st : PState) (b : Bool) (x : Char) :
    (stepCore st b true x).2.2 = true := by
  cases st <;> simp only [stepCore] <;> split_ifs <;> simp

theorem stepCore_snw_false (st : PState) (b : Bool) (x : Char) (hx : x ≠ ' ') :
    (stepCore st b false x).2.2 = false := by
  cases st <;> simp only [stepCore] <;> split_ifs <;> simp_all

/-- At the position of the last byte (`i == len(input)-1`) a flush always
happens: the trimmed buffer (with this step's `toAdd` appended) is emitted,
whatever the state or buffer contents. -/
theorem parseStep_atLast (T i : Nat) (x : Char) (st : TokState) (h : i = T - 1) :
    parseStep T i x st =
      { state := (stepCore st.state (!(st.currWord == "")) true x).1,
        currWord := "",
        args := st.args ++
          [goTrim (st.currWord ++ (stepCore st.state (!(st.currWord == "")) true x).2.1)] } := by
  subst h
  simp [parseStep, stepCore_snw_true]

/-- Away from the last byte position, a step on a non-space character never
flushes: the buffer grows by `toAdd` and the emitted words are unchanged. -/
theorem parseStep_not_atLast (T i : Nat) (x : Char) (st : TokState)
    (h : ¬ i = T - 1) (hx : x ≠ ' ') :
    parseStep T i x st =
      { state := (stepCore st.state (!(st.currWord == "")) false x).1,
        currWord := st.currWord ++ (stepCore st.state (!(st.currWord == "")) false x).2.1,
        args := st.args } := by
  simp [parseStep, h, stepCore_snw_false, hx]

theorem fsLookup_fsUpdate_self (fs : List (String × String)) (n c : String) :
    fsLookup (fsUpdate fs n c) n = some c := by
  induction fs with
  | nil => simp [fsUpdate, fsLookup, List.lookup]
  | cons kv rest ih =>
    obtain ⟨k, v⟩ := kv
    by_cases h : k = n
    · simp [fsUpdate, h, fsLookup, List.lookup]
    · have h2 : (n == k) = false := by
        simp only [beq_eq_false_iff_ne, ne_eq]
        exact fun hk => h hk.symm
      simp [fsUpdate, h, fsLookup, List.lookup, h2]
      exact ih

theorem String.join_singleton (s : String) : String.join [s] = s := by
  have h : String.join [s] = "" ++ s := rfl
  rw [h, String.empty_append]

theorem getSystemCommandAux_first_match (env : Env) (name : String) (dirs : List String) :
    (∀ d, dirs.find? (fun dir => dirHasOwnerExec env name dir) = some d →
      getSystemCommandAux env name dirs = (filepathJoin d name, .cmdSystem)) ∧
    (dirs.find? (fun dir => dirHasOwnerExec env name dir) = none →
      getSystemCommandAux env name dirs = ("", .cmdNotFound)) := by
  induction dirs with
  | nil => exact ⟨fun d h => by simp at h, fun _ => rfl⟩
  | cons dir rest ih =>
    cases hstat : statEnv env (filepathJoin dir name) with
    | none =>
      have hp : dirHasOwnerExec env name dir = false := by
        simp [dirHasOwnerExec, hstat]
      constructor
      · intro d h
        rw [List.find?_cons_of_neg _ (by simp [hp])] at h
        simpa [getSystemCommandAux, hstat] using ih.1 d h
      · intro h
        rw [List.find?_cons_of_neg _ (by simp [hp])] at h
        simpa [getSystemCommandAux, hstat] using ih.2 h
    | some fi =>
      by_cases hbit : fi.perm &&& 0o100 = 0
      · have hp : dirHasOwnerExec env name dir = false := by
          simp [dirHasOwnerExec, hstat, hbit]
        constructor
        · intro d h
          rw [List.find?_cons_of_neg _ (by simp [hp])] at h
          simpa [getSystemCommandAux, hstat, hbit] using ih.1 d h
        · intro h
          rw [List.find?_cons_of_neg _ (by simp [hp])] at h
          simpa [getSystemCommandAux, hstat, hbit] using ih.2 h
      · have hp : dirHasOwnerExec env name dir = true := by
          simp [dirHasOwnerExec, hstat, hbit]
        constructor
        · intro d h
          rw [List.find?_cons_of_pos _ (by simp [hp])] at h
          cases h
          simp [getSystemCommandAux, hstat, hbit]
        · intro h
          rw [List.find?_cons_of_pos _ (by simp [hp])] at h
          cases h

/-! ## Claim theorems -/

/-- C2, counterexample: on the empty Word sequence the Segmenter produces
zero Segments, while the claim demands `1 + 0 = 1` Segments (the final-
accumulation append happens inside the Go loop body, which never runs on
empty input). -/
theorem aggregateArgs_nil_cex :
    (aggregateArgs ([] : List String)).length = 0 ∧
      (0 : Nat) ≠ 1 + ([] : List String).countP (fun x => isRedirect x) := by
  constructor <;> decide

/-- C2 (amended): for every Word sequence, concatenating all Segments'
Words in order reproduces the original sequence; and for every NON-EMPTY
Word sequence the number of Segments equals 1 + the count of Words ending
in the redirect marker `>` (the empty sequence yields zero Segments). -/
theorem aggregateArgs_segmentation (args : List String) :
    (aggregateArgs args).flatten = args ∧
      (args ≠ [] →
        (aggregateArgs args).length = 1 + args.countP (fun x => isRedirect x)) := by
  constructor
  · match args with
    | [] => rfl
    | x :: xs =>
      have h := aggregateArgsAux_join (x :: xs) [] []
      simpa [aggregateArgs] using h
  · intro hne
    match args with
    | [] => exact absurd rfl hne
    | x :: xs =>
      have h := aggregateArgsAux_length (x :: xs) [] []
      simpa [aggregateArgs] using h

/-- C1, counterexample: redirecting payload `hi` onto an existing file whose
content is `ABCDEF` leaves `hiCDEF`, not `hi` — the open at main.go:257 uses
`os.O_WRONLY` without truncation, so the old content beyond the payload
survives.  The claim predicts the resulting content equals the payload. -/
theorem handleRedirect_no_truncate_cex :
    fsLookup
        (handleRedirect
          { args := [">", "out.txt"], commandName := ">", status := 1, stdErr := "", stdOut := "" }
          { args := [], commandName := "", status := 1, stdErr := "", stdOut := "hi" }
          [("out.txt", "ABCDEF")] none).2 "out.txt" = some "hiCDEF" ∧
      some "hiCDEF" ≠ some ("hi" : String) := by
  constructor <;> decide

/-- C1 (amended): on a redirect Segment with a target filename, the write
payload is the previous Segment's captured stdout followed by the Segment's
remaining literal arguments joined with no separator; the target file is
created (with exactly the payload) if absent, and opened for writing
WITHOUT truncation if present — the payload overwrites from the start and
any previous content beyond the payload's length survives; the context's
status is 0 exactly when the write succeeds, and otherwise its stderr holds
the error description. -/
theorem handleRedirect_write (cfg prev : executionConfig) (fs : List (String × String))
    (fileName e : String) (h2 : 2 ≤ cfg.args.length) (hn : cfg.args[1]?.getD "" = fileName) :
    handleRedirect cfg prev fs none =
      ({ cfg with status := 0 },
        fsUpdate fs fileName
          (goWriteContent (fsLookup fs fileName)
            (String.join (prev.stdOut :: cfg.args.drop 2)))) ∧
    handleRedirect cfg prev fs (some e) = ({ cfg with stdErr := e }, fs) ∧
    (fsLookup fs fileName = none →
      fsLookup (handleRedirect cfg prev fs none).2 fileName =
        some (String.join (prev.stdOut :: cfg.args.drop 2))) := by
  have hlt : ¬ cfg.args.length < 2 := by omega
  refine ⟨?_, ?_, ?_⟩
  · simp [handleRedirect, hlt, hn]
  · simp [handleRedirect, hlt]
  · intro hnone
    simp [handleRedirect, hlt, hn, hnone, goWriteContent, fsLookup_fsUpdate_self]

/-- C1, witness: redirecting `hi` to an absent file creates it with exactly
`hi` and status 0. -/
theorem handleRedirect_write_witness :
    handleRedirect
        { args := [">", "f.txt"], commandName := ">", status := 1, stdErr := "", stdOut := "" }
        { args := [], commandName := "", status := 1, stdErr := "", stdOut := "hi" } [] none =
      ({ args := [">", "f.txt"], commandName := ">", status := 0, stdErr := "", stdOut := "" },
        [("f.txt", "hi")]) := by
  have h := (handleRedirect_write
    { args := [">", "f.txt"], commandName := ">", status := 1, stdErr := "", stdOut := "" }
    { args := [], commandName := "", status := 1, stdErr := "", stdOut := "hi" } [] "f.txt" "e"
    (by decide) rfl).1
  exact h.trans (by decide)

/-- C10: a redirect Segment with fewer than two Words gets the message
`too few arguments for redirect` in the context's STDOUT, with the status
left at the failure default 1 and stderr empty; the line reporter then
selects stderr (status ≠ 0), trims the empty string and suppresses the
report, so the error appears on neither stream. -/
theorem handleRedirect_too_few_args (name : String) (args : List String)
    (prev : executionConfig) (fs : List (String × String)) (werr : Option String)
    (h : args.length < 2) :
    handleRedirect (newExecutionConfig name args) prev fs werr =
      ({ newExecutionConfig name args with stdOut := "too few arguments for redirect" }, fs) ∧
      reportOf { newExecutionConfig name args with stdOut := "too few arguments for redirect" } =
        none := by
  constructor
  · simp [handleRedirect, newExecutionConfig, h]
  · simp [reportOf, newExecutionConfig, goTrim, goTrimChars]

/-- C10, witness: the bare marker Segment `>` hits the too-few-arguments
path and nothing is reported on either stream. -/
theorem handleRedirect_too_few_args_witness :
    handleRedirect (newExecutionConfig ">" [">"]) (newExecutionConfig "" []) [] none =
      ({ newExecutionConfig ">" [">"] with stdOut := "too few arguments for redirect" }, []) ∧
      reportOf { newExecutionConfig ">" [">"] with stdOut := "too few arguments for redirect" } =
        none :=
  handleRedirect_too_few_args ">" [">"] (newExecutionConfig "" []) [] none (by decide)

/-- C3: `executeCommand` decides the classification in the fixed precedence
order Redirect (compound) > Builtin > System > NotFound; in particular a
name matching one of the five builtin names is classified Builtin whatever
the PATH environment holds, so a builtin name that also resolves on PATH is
never classified System. -/
theorem executeCommand_precedence (env : Env) (name : String) :
    (isRedirect name = true → executeCommandClass env name = .cmdCompound) ∧
    (isRedirect name = false → builtinNames.contains name = true →
      executeCommandClass env name = .cmdBuiltin) ∧
    (isRedirect name = false → builtinNames.contains name = false →
      (getSystemCommand env name).2 = .cmdSystem →
      executeCommandClass env name = .cmdSystem) ∧
    (isRedirect name = false → builtinNames.contains name = false →
      (getSystemCommand env name).2 ≠ .cmdSystem →
      executeCommandClass env name = .cmdNotFound) ∧
    (builtinNames.contains name = true → executeCommandClass env name = .cmdBuiltin) := by
  have hbr : builtinNames.contains name = true → isRedirect name = false := by
    intro hb
    have hm : name = "cd" ∨ name = "echo" ∨ name = "exit" ∨ name = "pwd" ∨ name = "type" := by
      simpa [builtinNames] using hb
    rcases hm with h | h | h | h | h <;> subst h <;> decide
  refine ⟨?_, ?_, ?_, ?_, ?_⟩
  · intro hr
    simp [executeCommandClass, getCompoundCommandType, hr]
  · intro hr hb
    have hb2 : name ∈ builtinNames := by simpa using hb
    simp [executeCommandClass, getCompoundCommandType, getBuiltinCommandType, hr, hb2]
  · intro hr hb hs
    have hb2 : name ∉ builtinNames := by simpa using hb
    simp [executeCommandClass, getCompoundCommandType, getBuiltinCommandType, hr, hb2, hs]
  · intro hr hb hs
    have hb2 : name ∉ builtinNames := by simpa using hb
    simp [executeCommandClass, getCompoundCommandType, getBuiltinCommandType, hr, hb2, hs]
  · intro hb
    have hr := hbr hb
    have hb2 : name ∈ builtinNames := by simpa using hb
    simp [executeCommandClass, getCompoundCommandType, getBuiltinCommandType, hr, hb2]

/-- C3, witness: `echo` is classified Builtin even in an environment where
`echo` also resolves as an executable on PATH. -/
theorem executeCommand_precedence_witness :
    executeCommandClass ⟨"bin", [("bin/echo", ⟨true, 0o755⟩)]⟩ "echo" =
        commandType.cmdBuiltin ∧
      (getSystemCommand ⟨"bin", [("bin/echo", ⟨true, 0o755⟩)]⟩ "echo").2 =
        commandType.cmdSystem :=
  ⟨(executeCommand_precedence ⟨"bin", [("bin/echo", ⟨true, 0o755⟩)]⟩ "echo").2.2.2.2
      (by decide),
    by decide⟩

/-- C4, counterexample: a PATH entry that is a regular file with ONLY the
group execute bit (mode 0o010) does not resolve — the code tests only
`Perm()&0o100` (the owner bit) and never checks regularity — while the
claim's own resolution rule (any execute bit on a regular file) resolves
it. -/
theorem getSystemCommand_anyexec_cex :
    (getSystemCommand ⟨"d", [("d/foo", ⟨true, 0o010⟩)]⟩ "foo").2 =
        commandType.cmdNotFound ∧
      (getSystemCommandClaim ⟨"d", [("d/foo", ⟨true, 0o010⟩)]⟩ "foo").2 =
        commandType.cmdSystem := by
  constructor <;> decide

/-- C4 (amended): System resolution scans the colon-separated PATH
directories in listed order and resolves to the first directory whose entry
named exactly `commandName` stats successfully with the OWNER execute bit
(`0o100`) set — regularity is not checked and the group/other execute bits
do not count; after the first match no further directory is consulted, and
if no directory matches the classification is NotFound. -/
theorem getSystemCommand_first_match (env : Env) (name : String) :
    (∀ d, (splitPath env.pathVar).find? (fun dir => dirHasOwnerExec env name dir) = some d →
      getSystemCommand env name = (filepathJoin d name, .cmdSystem)) ∧
    ((splitPath env.pathVar).find? (fun dir => dirHasOwnerExec env name dir) = none →
      getSystemCommand env name = ("", .cmdNotFound)) :=
  getSystemCommandAux_first_match env name (splitPath env.pathVar)

/-- C4, witness: with `foo` present and owner-executable in both `d1` and
`d2` of PATH `d1:d2`, resolution stops at `d1`. -/
theorem getSystemCommand_first_match_witness :
    getSystemCommand ⟨"d1:d2", [("d1/foo", ⟨true, 0o100⟩), ("d2/foo", ⟨true, 0o100⟩)]⟩ "foo" =
      ("d1/foo", commandType.cmdSystem) := by
  have h := (getSystemCommand_first_match
    ⟨"d1:d2", [("d1/foo", ⟨true, 0o100⟩), ("d2/foo", ⟨true, 0o100⟩)]⟩ "foo").1 "d1" (by decide)
  exact h.trans (by decide)

/-- C8, counterexample: `exit abc` reports the parse error on stderr but
terminates the process with status 1 (the context's failure default), not
status 0 as the claim states — the `status = x` assignment runs only when
parsing SUCCEEDS (main.go:337-341), so a parse failure leaves the initial
status 1 for `os.Exit`. -/
theorem handleExit_parse_failure_cex :
    handleExit (newExecutionConfig "exit" ["exit", "abc"]) =
      ExitOutcome.exited 1
        { args := ["exit", "abc"], commandName := "exit", status := 1,
          stdErr := "strconv.Atoi: parsing \"abc\": invalid syntax", stdOut := "" } ∧
      (1 : Int) ≠ 0 := by
  constructor <;> decide

/-- C8 (amended): `exit` with exactly one additional argument that is not
numeric reports the parse failure via the context's stderr and terminates
the process with status 1 (the context's default failure status, which the
failed parse leaves untouched); with a numeric additional argument the
process terminates with the parsed status; with more than one additional
argument stderr is set to `too many arguments` and the process is not
terminated. -/
theorem handleExit_behavior (p a b : String) :
    (∀ e, goAtoi p = .error e →
      handleExit (newExecutionConfig "exit" ["exit", p]) =
        .exited 1 { newExecutionConfig "exit" ["exit", p] with stdErr := e }) ∧
    (∀ n, goAtoi p = .ok n →
      handleExit (newExecutionConfig "exit" ["exit", p]) =
        .exited n { newExecutionConfig "exit" ["exit", p] with status := n }) ∧
    handleExit (newExecutionConfig "exit" ["exit", a, b]) =
      .returned { newExecutionConfig "exit" ["exit", a, b] with stdErr := "too many arguments" } := by
  refine ⟨fun e he => ?_, fun n hn => ?_, ?_⟩
  · simp [handleExit, newExecutionConfig, he]
  · simp [handleExit, newExecutionConfig, hn]
  · simp [handleExit, newExecutionConfig]

/-- C8, witness: `exit 3` terminates with status 3; `exit 1 2` returns the
too-many-arguments error without terminating. -/
theorem handleExit_behavior_witness :
    handleExit (newExecutionConfig "exit" ["exit", "3"]) =
        ExitOutcome.exited 3 { newExecutionConfig "exit" ["exit", "3"] with status := 3 } ∧
      handleExit (newExecutionConfig "exit" ["exit", "1", "2"]) =
        ExitOutcome.returned
          { newExecutionConfig "exit" ["exit", "1", "2"] with stdErr := "too many arguments" } := by
  constructor
  · exact (handleExit_behavior "3" "1" "2").2.1 3 rfl
  · exact (handleExit_behavior "3" "1" "2").2.2

/-- C9: `cd` to a path to which `os.Chdir` fails (a non-existent path, not
the `~` shorthand) leaves the working directory and all other world state
unchanged and produces status 1 with stderr exactly
`cd: <path>: No such file or directory`. -/
theorem handleCd_missing_dir (w : World) (p : String)
    (h1 : goTrim p = p) (h2 : p ≠ "~") (h3 : w.dirs.contains p = false) :
    handleCd w (newExecutionConfig "cd" ["cd", p]) =
      ({ newExecutionConfig "cd" ["cd", p] with
          stdErr := "cd: " ++ p ++ ": No such file or directory" }, w) ∧
      (handleCd w (newExecutionConfig "cd" ["cd", p])).1.status = 1 := by
  have hstep : handleCd w (newExecutionConfig "cd" ["cd", p]) =
      ({ newExecutionConfig "cd" ["cd", p] with
          stdErr := "cd: " ++ p ++ ": No such file or directory" }, w) := by
    have h4 : p ∉ w.dirs := by simpa using h3
    simp [handleCd, newExecutionConfig, String.join_singleton, h1, h2, chdir, h4]
  refine ⟨hstep, ?_⟩
  rw [hstep]
  simp [newExecutionConfig]

/-- C9, witness: `cd nosuchdir` in a world where only `/` and `/home`
exist fails with the exact message, leaving the world untouched. -/
theorem handleCd_missing_dir_witness :
    handleCd ⟨"/", ["/", "/home"], "/home"⟩ (newExecutionConfig "cd" ["cd", "nosuchdir"]) =
      ({ newExecutionConfig "cd" ["cd", "nosuchdir"] with
          stdErr := "cd: nosuchdir: No such file or directory" },
        ⟨"/", ["/", "/home"], "/home"⟩) :=
  (handleCd_missing_dir ⟨"/", ["/", "/home"], "/home"⟩ "nosuchdir"
    (by decide) (by decide) (by decide)).1

/-- C5, counterexample: the line consisting of the single two-byte character
`é` (U+00E9) ends with a non-empty word buffer, yet no final Word is
flushed — `parseArgs` returns the empty word list, not `["é"]`.  (Go's
`range` supplies the byte index of each rune, so for a multi-byte final rune
`i == len(input)-1` never fires.) -/
theorem parseArgs_multibyte_cex :
    parseArgsChars [Char.ofNat 233] = [] ∧
      ([] : List String) ≠ [String.singleton (Char.ofNat 233)] := by
  constructor <;> decide

/-- C5 (amended): at end of input, if the final character of the line is a
single-byte character, the current word buffer — extended by that step's
output and white-space-trimmed — is ALWAYS flushed as the final Word, even
when it is empty; if the final character is multi-byte, NO end-of-input
flush happens and the buffer is discarded from the result. -/
theorem parseArgs_eol_flush (s : List Char) (c : Char) :
    (c.utf8Size = 1 →
      parseArgsChars (s ++ [c]) =
        (tokRun s (utf8Len (s ++ [c]))).args ++
          [goTrim ((tokRun s (utf8Len (s ++ [c]))).currWord ++
            (stepCore (tokRun s (utf8Len (s ++ [c]))).state
              (!((tokRun s (utf8Len (s ++ [c]))).currWord == "")) true c).2.1)]) ∧
    (2 ≤ c.utf8Size →
      parseArgsChars (s ++ [c]) = (tokRun s (utf8Len (s ++ [c]))).args) := by
  have key : parseArgsChars (s ++ [c]) =
      (parseStep (utf8Len (s ++ [c])) (utf8Len s) c (tokRun s (utf8Len (s ++ [c])))).args := by
    show (parseArgsAux (utf8Len (s ++ [c])) 0 initTokState (s ++ [c])).args = _
    rw [parseArgsAux_append]
    simp [parseArgsAux, tokRun]
  constructor
  · intro h1
    have hT : utf8Len s = utf8Len (s ++ [c]) - 1 := by
      simp [utf8Len, h1]
    rw [key, parseStep_atLast _ _ _ _ hT]
  · intro h2
    have hT : ¬ utf8Len s = utf8Len (s ++ [c]) - 1 := by
      simp only [utf8Len, List.map_append, List.sum_append, List.map_cons,
        List.sum_cons, List.map_nil, List.sum_nil]
      omega
    have hx : c ≠ ' ' := by
      intro hc
      rw [hc] at h2
      exact absurd h2 (by decide)
    rw [key, parseStep_not_atLast _ _ _ _ hT hx]

/-- C5, witness: with the single-byte final character `b` the buffer `ab`
is flushed; with the two-byte final character `é` nothing is flushed and
the word `aé` is lost. -/
theorem parseArgs_eol_flush_witness :
    parseArgsChars ['a', 'b'] = ["ab"] ∧ parseArgsChars ['a', Char.ofNat 233] = [] := by
  constructor
  · exact ((parseArgs_eol_flush ['a'] 'b').1 (by decide)).trans (by decide)
  · exact ((parseArgs_eol_flush ['a'] (Char.ofNat 233)).2 (by decide)).trans (by decide)

/-- C6, counterexample: tokenizing `' a b '` yields the Word `a b`, not
`" a b "` — the flush at main.go:190 passes every emitted word through
`strings.TrimSpace`, so single-quoted leading/trailing spaces are stripped
from the emitted Word. -/
theorem singleQuoted_spaces_cex :
    parseArgsChars [squote, ' ', 'a', ' ', 'b', ' ', squote] = ["a b"] ∧
      (["a b"] : List String) ≠ [" a b "] := by
  constructor <;> decide

/-- C6 (amended): inside single quotes every character other than the
closing quote is appended verbatim to the current word buffer and no
escaping is recognized (the quote itself closes the quote and returns to
`Unquoted`); but each emitted Word is white-space-trimmed at flush time, so
single-quoted LEADING/TRAILING spaces are stripped from the emitted Word
(interior spaces survive): tokenizing `' a b '` emits `a b`. -/
theorem singleQuoted_verbatim (b atLast : Bool) (x : Char) :
    (x ≠ squote →
      stepCore .singleQuoted b atLast x = (.singleQuoted, String.singleton x, atLast)) ∧
      stepCore .singleQuoted b atLast squote = (.unquoted, "", atLast) ∧
      parseArgsChars [squote, ' ', 'a', ' ', 'b', ' ', squote] = ["a b"] := by
  refine ⟨fun h => ?_, ?_, ?_⟩
  · simp [stepCore, h]
  · simp [stepCore]
  · decide

/-- C6, witness: a concrete non-quote character inside single quotes is
appended verbatim. -/
theorem singleQuoted_verbatim_witness :
    stepCore .singleQuoted false false 'z' = (.singleQuoted, String.singleton 'z', false) :=
  (singleQuoted_verbatim false false 'z').1 (by decide)

/-- C7: in state `DoubleQuotedEscaped`, if the character is one of `"`,
`$`, backtick, `\`, newline then only that character is appended (the
backslash is dropped), otherwise the backslash and the character are both
appended; in both cases the state returns to `DoubleQuoted`.  Concretely,
tokenizing `echo "a\qb"` yields the Words `echo` and `a\qb` with the
backslash kept. -/
theorem doubleQuotedEscaped_rules (b atLast : Bool) (x : Char) :
    stepCore .doubleQuotedEscaped b atLast x =
      (.doubleQuoted,
        if x = '"' ∨ x = '$' ∨ x = backtick ∨ x = '\\' ∨ x = Char.ofNat 10
          then String.singleton x else "\\" ++ String.singleton x,
        atLast) ∧
      parseArgs "echo \"a\\qb\"" = ["echo", "a\\qb"] :=
  ⟨rfl, by decide⟩

/-- C2, witness: a concrete non-empty Word sequence with one redirect
marker yields two Segments whose concatenation is the input. -/
theorem aggregateArgs_segmentation_witness :
    (aggregateArgs ["echo", "hi", "x>", "f"]).flatten = ["echo", "hi", "x>", "f"] ∧
      (aggregateArgs ["echo", "hi", "x>", "f"]).length = 2 := by
  have h := aggregateArgs_segmentation ["echo", "hi", "x>", "f"]
  exact ⟨h.1, (h.2 (by decide)).trans (by decide)⟩

end Shell
